import Mathlib

/-!
# TR-AIS — verification of the spec against the code

Two parts:

* **Max for Live bridge** (`src/m4l/code/bridge.js`): a shallow embedding of
  `getTrackContext` / `getDevices` / `getDeviceParameters` / `getClipSlots`,
  and of `response` / `executeCommand` with their exception guards.  The Live
  API world is modelled as an explicit `Track` value; Live API failures
  (invalid paths, rejected calls) are modelled as thrown exceptions via
  `Except`.

* **Playback scheduler**: the real-time sequencer `midi_engine.py` described
  by the spec and by `src/FUTURE.md` is not part of the source tree here, so
  the Timing Engine / Playback Loop / Control Channel are modelled from the
  spec's words (each such definition carries a doc comment starting
  `Modelled from the spec:`).  Wall-clock time is modelled by `ℚ` (seconds);
  scheduler jitter is an arbitrary non-negative delay added to each deadline.
-/

namespace TRAIS

/-! ## Part 1: the Max for Live bridge (`src/m4l/code/bridge.js`) -/

/-- A MIDI note object as passed to `add_new_notes` (see `testNote` in
`bridge.js`): pitch, start time, duration, velocity. -/
structure MidiNote where
  pitch : ℕ
  start_time : ℚ
  duration : ℚ
  velocity : ℕ
deriving DecidableEq

/-- A device parameter as seen through the Live API. -/
structure DeviceParam where
  name : String
  value : ℚ
  min : ℚ
  max : ℚ
deriving DecidableEq

/-- A device on the track: `name`, `class_name`, and its parameter list. -/
structure Device where
  name : String
  className : String
  parameters : List DeviceParam
deriving DecidableEq

/-- A clip inside a clip slot. -/
structure Clip where
  name : String
  length : ℚ
  isPlaying : Bool
  notes : List MidiNote
deriving DecidableEq

/-- A clip slot: `has_clip` is modelled by `clip.isSome`. -/
structure ClipSlot where
  clip : Option Clip
deriving DecidableEq

/-- The Live track that hosts the device (`this_device canonical_parent`):
the whole mutable Live-API world the bridge touches.  `id = 0` models the
Live API not being ready (`!track.id` in `bang`/`getTrackContext`). -/
structure Track where
  id : ℕ
  name : String
  color : ℕ
  volume : ℚ
  pan : ℚ
  mute : Bool
  solo : Bool
  arm : Bool
  devices : List Device
  clipSlots : List ClipSlot
deriving DecidableEq

/-- Entry of the `parameters` array built by `getDeviceParameters`. -/
structure ParamInfo where
  index : ℕ
  name : String
  value : ℚ
  min : ℚ
  max : ℚ
deriving DecidableEq

/-- Entry of the `devices` array built by `getDevices`.  The JSON key of
`className` is `"class"` in the source (a Lean keyword). -/
structure DeviceInfo where
  index : ℕ
  name : String
  className : String
  parameters : List ParamInfo
deriving DecidableEq

/-- Entry of the `clipSlots` array built by `getClipSlots`; the three clip
fields are only present when `hasClip`. -/
structure SlotInfo where
  index : ℕ
  hasClip : Bool
  clipName : Option String
  clipLength : Option ℚ
  isPlaying : Option Bool
deriving DecidableEq

/-- The context object built by `getTrackContext`. -/
structure TrackContext where
  name : String
  color : ℕ
  volume : ℚ
  pan : ℚ
  muted : Bool
  soloed : Bool
  armed : Bool
  devices : List DeviceInfo
  clipSlots : List SlotInfo
deriving DecidableEq

/-- Embeds `getDeviceParameters(deviceIndex)` from `bridge.js`:
`device.get("parameters")` returns a flat `["id", n, …]` array of length
twice the number of parameters, so `count = Math.floor(paramIds.length / 2)`
is the parameter count; at most `limit = Math.min(count, 20)` entries are
pushed. -/
def getDeviceParameters (track : Track) (deviceIndex : ℕ) : List ParamInfo :=
  match track.devices[deviceIndex]? with
  | none => []
  | some device =>
      let count := 2 * device.parameters.length / 2
      let limit := min count 20
      (List.range limit).map fun i =>
        let p := device.parameters.getD i ⟨"", 0, 0, 0⟩
        ⟨i, p.name, p.value, p.min, p.max⟩

/-- Embeds `getDevices()` from `bridge.js`: iterates the track's devices, skipping
any device whose `class_name` is `"MaxForLive"` or whose name is
`"ChatM4L"`, and attaches `getDeviceParameters i` to each kept device. -/
def getDevices (track : Track) : List DeviceInfo :=
  let count := 2 * track.devices.length / 2
  (List.range count).filterMap fun i =>
    match track.devices[i]? with
    | none => none
    | some device =>
        if device.className = "MaxForLive" ∨ device.name = "ChatM4L" then
          none
        else
          some ⟨i, device.name, device.className, getDeviceParameters track i⟩

/-- Embeds `getClipSlots()` from `bridge.js`: at most `limit = Math.min(count, 8)`
slots are reported; clip name/length/playing are read only when the slot has
a clip. -/
def getClipSlots (track : Track) : List SlotInfo :=
  let count := 2 * track.clipSlots.length / 2
  let limit := min count 8
  (List.range limit).map fun i =>
    let slot := track.clipSlots.getD i ⟨none⟩
    match slot.clip with
    | none => ⟨i, false, none, none, none⟩
    | some c => ⟨i, true, some c.name, some c.length, some c.isPlaying⟩

/-- Embeds `getTrackContext()` from `bridge.js`: the degenerate context when the
Live API is not ready (`!track.id`), otherwise the full snapshot. -/
def getTrackContext (track : Track) : TrackContext :=
  if track.id = 0 then
    ⟨"Unknown", 0, 0, 0, false, false, false, [], []⟩
  else
    ⟨track.name, track.color, track.volume, track.pan,
     track.mute, track.solo, track.arm,
     getDevices track, getClipSlots track⟩

/-- A command object from the AI response (`result.commands[i]`); fields not
used by a given action are ignored, `length` defaults to 4 via
`cmd.length || 4`.  The JS field `clip_slot` keeps its name. -/
structure BridgeCmd where
  action : String
  device : ℕ
  param : ℕ
  value : ℚ
  clip_slot : ℕ
  notes : List MidiNote
  length : Option ℚ
deriving DecidableEq

/-- Embeds `setDeviceParameter` from `bridge.js`; an invalid device or parameter
path is modelled as a thrown Live API exception. -/
def setDeviceParameter (s : Track) (deviceIndex paramIndex : ℕ) (value : ℚ) :
    Except String Track :=
  match s.devices[deviceIndex]? with
  | none => .error "invalid device path"
  | some d =>
      match d.parameters[paramIndex]? with
      | none => .error "invalid parameter path"
      | some p =>
          let d2 := { d with parameters :=
                        d.parameters.set paramIndex { p with value := value } }
          .ok { s with devices := s.devices.set deviceIndex d2 }

/-- Embeds `setTrackVolume` from `bridge.js`. -/
def setTrackVolume (s : Track) (value : ℚ) : Except String Track :=
  .ok { s with volume := value }

/-- Embeds `setTrackPan` from `bridge.js`. -/
def setTrackPan (s : Track) (value : ℚ) : Except String Track :=
  .ok { s with pan := value }

/-- Embeds `setTrackMute` from `bridge.js`: `track.set("mute", value ? 1 : 0)` —
JS truthiness of a numeric payload is `value ≠ 0`. -/
def setTrackMute (s : Track) (value : ℚ) : Except String Track :=
  .ok { s with mute := value ≠ 0 }

/-- Embeds `setTrackSolo` from `bridge.js`. -/
def setTrackSolo (s : Track) (value : ℚ) : Except String Track :=
  .ok { s with solo := value ≠ 0 }

/-- Embeds `addMidiNotes` from `bridge.js`: creates the clip when the slot is
empty, then appends the notes via `add_new_notes`. -/
def addMidiNotes (s : Track) (clipSlotIndex : ℕ) (notes : List MidiNote)
    (length : ℚ) : Except String Track :=
  match s.clipSlots[clipSlotIndex]? with
  | none => .error "invalid clip slot path"
  | some slot =>
      let base : Clip :=
        match slot.clip with
        | none => ⟨"", length, false, []⟩
        | some c => c
      let slot2 : ClipSlot := ⟨some { base with notes := base.notes ++ notes }⟩
      .ok { s with clipSlots := s.clipSlots.set clipSlotIndex slot2 }

/-- Embeds `clearClip` from `bridge.js`: removes all notes when the slot has a
clip, does nothing otherwise. -/
def clearClip (s : Track) (clipSlotIndex : ℕ) : Except String Track :=
  match s.clipSlots[clipSlotIndex]? with
  | none => .error "invalid clip slot path"
  | some slot =>
      match slot.clip with
      | none => .ok s
      | some c =>
          let slot2 : ClipSlot := ⟨some { c with notes := [] }⟩
          .ok { s with clipSlots := s.clipSlots.set clipSlotIndex slot2 }

/-- Embeds `fireClip` from `bridge.js`: `slot.call("fire")`. -/
def fireClip (s : Track) (clipSlotIndex : ℕ) : Except String Track :=
  match s.clipSlots[clipSlotIndex]? with
  | none => .error "invalid clip slot path"
  | some slot =>
      match slot.clip with
      | none => .ok s
      | some c =>
          let slot2 : ClipSlot := ⟨some { c with isPlaying := true }⟩
          .ok { s with clipSlots := s.clipSlots.set clipSlotIndex slot2 }

/-- Embeds `stopClip` from `bridge.js`: `slot.call("stop")`. -/
def stopClip (s : Track) (clipSlotIndex : ℕ) : Except String Track :=
  match s.clipSlots[clipSlotIndex]? with
  | none => .error "invalid clip slot path"
  | some slot =>
      match slot.clip with
      | none => .ok s
      | some c =>
          let slot2 : ClipSlot := ⟨some { c with isPlaying := false }⟩
          .ok { s with clipSlots := s.clipSlots.set clipSlotIndex slot2 }

/-- The nine actions of `executeCommand`'s `switch` in `bridge.js`. -/
def knownActions : List String :=
  ["set_parameter", "set_volume", "set_pan", "set_mute", "set_solo",
   "add_notes", "clear_clip", "fire_clip", "stop_clip"]

/-- The body of `executeCommand`'s `switch` for a known action: the action's
Live API effect, which may throw. -/
def runAction (cmd : BridgeCmd) (s : Track) : Except String Track :=
  if cmd.action = "set_parameter" then
    setDeviceParameter s cmd.device cmd.param cmd.value
  else if cmd.action = "set_volume" then setTrackVolume s cmd.value
  else if cmd.action = "set_pan" then setTrackPan s cmd.value
  else if cmd.action = "set_mute" then setTrackMute s cmd.value
  else if cmd.action = "set_solo" then setTrackSolo s cmd.value
  else if cmd.action = "add_notes" then
    addMidiNotes s cmd.clip_slot cmd.notes (cmd.length.getD 4)
  else if cmd.action = "clear_clip" then clearClip s cmd.clip_slot
  else if cmd.action = "fire_clip" then fireClip s cmd.clip_slot
  else if cmd.action = "stop_clip" then stopClip s cmd.clip_slot
  else .ok s

/-- The `post(...)` lines of `executeCommand`, made observable. -/
inductive LogEntry
  | executing (action : String)
  | commandError (msg : String)
  | unknownCommand (action : String)
deriving DecidableEq

/-- Is this log entry the `"Executing: …"` line that opens `executeCommand`? -/
def LogEntry.isExecuting : LogEntry → Bool
  | .executing _ => true
  | _ => false

/-- Embeds `executeCommand` from `bridge.js`: posts `"Executing: …"`, then runs the
`switch` inside its own `try/catch` — a thrown exception is caught and only
logged (`"Command error: …"`), an unknown action only logs
`"Unknown command: …"` and touches nothing. -/
def executeCommand (cmd : BridgeCmd) (s : Track) : Track × List LogEntry :=
  if knownActions.contains cmd.action then
    match runAction cmd s with
    | .ok s2 => (s2, [.executing cmd.action])
    | .error e => (s, [.executing cmd.action, .commandError e])
  else
    (s, [.executing cmd.action, .unknownCommand cmd.action])

/-- The command-execution loop of `response` in `bridge.js`:
`for (const cmd of result.commands) executeCommand(cmd)`. -/
def response (cmds : List BridgeCmd) (s : Track) : Track × List LogEntry :=
  match cmds with
  | [] => (s, [])
  | c :: rest =>
      let r1 := executeCommand c s
      let r2 := response rest r1.1
      (r2.1, r1.2 ++ r2.2)

/-! ## Part 2: the playback scheduler, modelled from the spec

`midi_engine.py` (the real-time MIDI sequencer) is not in the source tree;
only its documentation is (`src/FUTURE.md`, `spec.md`).  All definitions in
this part are therefore modelled from the spec's words. -/

/-- TR-8S MIDI note map from `src/FUTURE.md`: instrument abbreviation ↦
(MIDI channel, note).  The MIDI channel is 10, i.e. channel index 9. -/
def instrumentMap : List (String × ℕ × ℕ) :=
  [("BD", (9, 36)), ("SD", (9, 38)), ("LT", (9, 43)), ("MT", (9, 47)),
   ("HT", (9, 50)), ("RS", (9, 37)), ("CP", (9, 39)), ("CH", (9, 42)),
   ("OH", (9, 46)), ("CC", (9, 49)), ("RC", (9, 51))]

/-- Modelled from the spec: the `Pattern` value type of the missing
scheduler — tempo in BPM, swing percent in `[0,100]`, and per-instrument
16-slot velocity arrays (`0` = rest, `>0` = velocity). -/
structure Pattern where
  tempoBpm : ℚ
  swingPercent : ℕ
  tracks : List (String × List ℕ)
deriving DecidableEq

/-- Modelled from the spec: `base_step_duration = 60.0 / tempo_bpm / 4.0`
seconds (a 16th note at the given tempo), from the missing Timing Engine. -/
def baseStepDuration (tempoBpm : ℚ) : ℚ :=
  60 / tempoBpm / 4

/-- Modelled from the spec: `swing_max_offset` of the missing Timing
Engine, a fixed fraction — one third — of `base_step_duration`. -/
def swingMaxOffset (tempoBpm : ℚ) : ℚ :=
  baseStepDuration tempoBpm / 3

/-- Modelled from the spec: the swing offset of step `i` in the missing
Timing Engine — even-indexed steps fire at their nominal time, odd-indexed
steps are delayed by `swing_percent / 100.0 * swing_max_offset`. -/
def swingOffset (tempoBpm : ℚ) (swingPercent : ℕ) (i : ℕ) : ℚ :=
  if i % 2 = 1 then (swingPercent : ℚ) / 100 * swingMaxOffset tempoBpm else 0

/-- Modelled from the spec: the duration of step `j` in the missing Timing
Engine — the gap between consecutive swung deadlines, i.e. the base 16th
note stretched/shrunk by the swing offsets of the two endpoints (for `j = 0`
the truncated `j - 1 = 0` makes the correction vanish). -/
def stepDuration (tempoBpm : ℚ) (swingPercent : ℕ) (j : ℕ) : ℚ :=
  baseStepDuration tempoBpm
    + swingOffset tempoBpm swingPercent j
    - swingOffset tempoBpm swingPercent (j - 1)

/-- Modelled from the spec: the absolute deadline the missing Timing Engine
assigns to the `i`-th dispatched step — the straight grid from the fixed
start reference, plus the swing offset of that step. -/
def deadline (startTime tempoBpm : ℚ) (swingPercent : ℕ) (i : ℕ) : ℚ :=
  startTime + (i + 1) * baseStepDuration tempoBpm
    + swingOffset tempoBpm swingPercent i

/-- Modelled from the spec: playback status — `Stopped` and `Playing` are
the only states of the missing Playback Loop. -/
inductive Status
  | stopped
  | playing
deriving DecidableEq

/-- Modelled from the spec: the inbound commands of the missing Control
Channel — `Play(Pattern)`, `Stop`, `SetTempo`, `SetSwing`,
`ReplacePattern(Pattern)`. -/
inductive Command
  | play (p : Pattern)
  | stop
  | setTempo (t : ℚ)
  | setSwing (s : ℕ)
  | replacePattern (p : Pattern)
deriving DecidableEq

/-- Modelled from the spec: the `PlaybackState` owned by the missing
Playback Loop.  `startTime` is the fixed reference instant captured once at
playback start; `elapsed` is the sum of the durations of the steps already
dispatched since that instant (kept fixed across re-anchoring);
`stepsDone` counts dispatched steps since playback start. -/
structure LoopState where
  status : Status
  currentStep : ℕ
  pattern : Pattern
  tempo : ℚ
  swing : ℕ
  startTime : ℚ
  elapsed : ℚ
  stepsDone : ℕ
deriving DecidableEq

/-- Modelled from the spec: the range clamp the core applies to a live
tempo value (valid range `(20, 300]`). -/
def clampTempo (t : ℚ) : ℚ :=
  min (max t 20) 300

/-- Modelled from the spec: the range clamp the core applies to a live
swing percent (range `[0, 100]`). -/
def clampSwing (s : ℕ) : ℕ :=
  min s 100

/-- Modelled from the spec: applying one drained command to the missing
Playback Loop's state.  `play` on a `Playing` loop atomically replaces the
pattern and the tempo/swing baseline without resetting `current_step`;
`play` on a `Stopped` loop is a fresh start from step 0.  Later commands of
the same kind supersede earlier ones because application folds in arrival
order. -/
def applyCommand (st : LoopState) (c : Command) : LoopState :=
  match c with
  | .play p =>
      if st.status = .playing then
        { st with pattern := p, tempo := clampTempo p.tempoBpm,
                  swing := clampSwing p.swingPercent }
      else
        { st with status := .playing, pattern := p,
                  tempo := clampTempo p.tempoBpm,
                  swing := clampSwing p.swingPercent,
                  currentStep := 0, elapsed := 0, stepsDone := 0 }
  | .stop => { st with status := .stopped }
  | .setTempo t => { st with tempo := clampTempo t }
  | .setSwing s => { st with swing := clampSwing s }
  | .replacePattern p =>
      { st with pattern := p, tempo := clampTempo p.tempoBpm,
                swing := clampSwing p.swingPercent }

/-- Modelled from the spec: the outbound events of one step — `note_on`
emissions to the MIDI Output collaborator and the `StepChanged` position
publication. -/
inductive Event
  | noteOn (channel note velocity : ℕ)
  | stepChanged (idx : ℕ)
deriving DecidableEq

/-- Modelled from the spec: step 4 of the per-step execution of the missing
Playback Loop — for each instrument in the active pattern whose
`StepArray[current_step] > 0`, emit a NoteOn `(channel, note, velocity)`
using the instrument's `instrumentMap` entry. -/
def emitStep (p : Pattern) (step : ℕ) : List Event :=
  p.tracks.filterMap fun t =>
    match instrumentMap.lookup t.1 with
    | none => none
    | some (ch, note) =>
        let v := t.2.getD step 0
        if 0 < v then some (.noteOn ch note v) else none

/-- Modelled from the spec: one observable item of a playback run's trace —
either a dispatched step (its index, its computed deadline, its actual
emission instant, its events) or the single defensive "all notes off" sweep
emitted on stop. -/
inductive TraceEntry
  | step (idx : ℕ) (deadline : ℚ) (time : ℚ) (events : List Event)
  | stopSweep (offs : List (ℕ × ℕ))
deriving DecidableEq

/-- Modelled from the spec: the "all notes off" sweep covers every
instrument's mapped note/channel. -/
def allNotesOffSweep : List (ℕ × ℕ) :=
  instrumentMap.map fun t => (t.2.1, t.2.2)

/-- Modelled from the spec: the body of one Playback Loop iteration, after
the Control Channel has been drained into the state `st1`.  If the status
became `Stopped` the loop emits the single "all notes off" sweep and
performs no note emission; otherwise it recomputes the next deadline from
the fixed start reference (`startTime + elapsed + duration(stepsDone)`),
waits (the actual emission instant is the deadline plus the scheduler
jitter `jit`), emits the active pattern's notes for `current_step`,
publishes the step, and advances
`current_step = (current_step + 1) mod 16`. -/
def stepIter (jit : ℚ) (st1 : LoopState) : LoopState × List TraceEntry :=
  if st1.status = .stopped then
    (st1, [.stopSweep allNotesOffSweep])
  else
    ({ st1 with
        currentStep := (st1.currentStep + 1) % 16,
        stepsDone := st1.stepsDone + 1,
        elapsed := st1.elapsed + stepDuration st1.tempo st1.swing st1.stepsDone },
     [.step st1.currentStep
        (st1.startTime + st1.elapsed + stepDuration st1.tempo st1.swing st1.stepsDone)
        (st1.startTime + st1.elapsed + stepDuration st1.tempo st1.swing st1.stepsDone + jit)
        (emitStep st1.pattern st1.currentStep ++ [.stepChanged st1.currentStep])])

/-- Modelled from the spec: one full iteration of the missing Playback
Loop — drain the Control Channel (folding the pending commands in arrival
order, so the latest of a kind wins), then run the iteration body. -/
def loopIter (cmds : List Command) (jit : ℚ) (st : LoopState) :
    LoopState × List TraceEntry :=
  stepIter jit (cmds.foldl applyCommand st)

/-- Modelled from the spec: a playback run of `n` loop iterations.
`inputs i` is the batch of commands drained at the start of iteration `i`,
`jitter i` the non-negative scheduling delay of iteration `i`'s emission.
Once the status is `Stopped` the execution context has exited and nothing
further happens. -/
def run (inputs : ℕ → List Command) (jitter : ℕ → ℚ) (st0 : LoopState) :
    ℕ → LoopState × List TraceEntry
  | 0 => (st0, [])
  | n + 1 =>
      if (run inputs jitter st0 n).1.status = .stopped then
        run inputs jitter st0 n
      else
        ((loopIter (inputs n) (jitter n) (run inputs jitter st0 n).1).1,
         (run inputs jitter st0 n).2
           ++ (loopIter (inputs n) (jitter n) (run inputs jitter st0 n).1).2)

/-- The step entries of a trace, as (index, deadline, emission time). -/
def stepEntries (tr : List TraceEntry) : List (ℕ × ℚ × ℚ) :=
  tr.filterMap fun e =>
    match e with
    | .step idx d t _ => some (idx, d, t)
    | .stopSweep _ => none

/-- The stop sweeps contained in a trace. -/
def sweepEntries (tr : List TraceEntry) : List (List (ℕ × ℕ)) :=
  tr.filterMap fun e =>
    match e with
    | .step _ _ _ _ => none
    | .stopSweep offs => some offs

/-- Modelled from the spec: the configuration errors of §7 — unknown
instrument id, tempo out of range. -/
inductive ConfigError
  | unknownInstrument (id : String)
  | tempoOutOfRange (t : ℚ)
deriving DecidableEq

/-- Is this tempo in the valid range `(20, 300]`? -/
def validTempo (t : ℚ) : Bool :=
  decide (20 < t) && decide (t ≤ 300)

/-- Is this instrument id known to the instrument map? -/
def knownInstrument (id : String) : Bool :=
  (instrumentMap.lookup id).isSome

/-- Modelled from the spec: validation of a pattern-carrying command at the
Control Channel boundary — reject a tempo out of `(20, 300]` and any
unknown instrument id. -/
def validatePattern (p : Pattern) : Option ConfigError :=
  if !validTempo p.tempoBpm then some (.tempoOutOfRange p.tempoBpm)
  else
    match p.tracks.find? fun t => !knownInstrument t.1 with
    | some t => some (.unknownInstrument t.1)
    | none => none

/-- Modelled from the spec: validation of an inbound command at the Control
Channel boundary.  Swing is range-clamped by the core rather than rejected;
`Stop` is always valid. -/
def validateCommand (c : Command) : Option ConfigError :=
  match c with
  | .play p => validatePattern p
  | .replacePattern p => validatePattern p
  | .setTempo t => if validTempo t then none else some (.tempoOutOfRange t)
  | .setSwing _ => none
  | .stop => none

/-- Modelled from the spec: submitting a command to the Control Channel.
A configuration error is rejected at the boundary, before anything reaches
the Playback Loop: the queue and the playback state are returned untouched,
with the error surfaced synchronously to the caller. -/
def submitCommand (c : Command) (queue : List Command) (st : LoopState) :
    (List Command × LoopState) × Option ConfigError :=
  match validateCommand c with
  | some e => ((queue, st), some e)
  | none => ((queue ++ [c], st), none)

/-! ### Sample values used to exercise the theorems on concrete inputs -/

/-- A concrete device with 25 parameters (more than the 20-entry cap). -/
def sampleDevice : Device :=
  ⟨"Operator", "InstrumentDevice", List.replicate 25 ⟨"p", 0, 0, 1⟩⟩

/-- A concrete track: one real device, one device the bridge must skip, and
10 clip slots (more than the 8-slot cap). -/
def sampleTrack : Track :=
  ⟨1, "Bass", 3, 1, 0, false, false, true,
   [sampleDevice, ⟨"ChatM4L", "MaxForLive", []⟩],
   List.replicate 10 ⟨none⟩⟩

/-- A concrete four-on-the-floor pattern at 120 BPM, straight timing. -/
def samplePattern : Pattern :=
  ⟨120, 0,
   [("BD", [127, 0, 0, 0, 127, 0, 0, 0, 127, 0, 0, 0, 127, 0, 0, 0]),
    ("SD", [0, 0, 0, 0, 127, 0, 0, 0, 0, 0, 0, 0, 127, 0, 0, 0]),
    ("CH", [100, 0, 100, 0, 100, 0, 100, 0, 100, 0, 100, 0, 100, 0, 100, 0])]⟩

/-- A second concrete pattern differing from `samplePattern` at step 3. -/
def samplePattern2 : Pattern :=
  ⟨120, 0, [("BD", [127, 0, 0, 90, 127, 0, 0, 0, 127, 0, 0, 0, 127, 0, 0, 0])]⟩

/-- A concrete playing loop state at the start of a bar. -/
def sampleState : LoopState :=
  ⟨.playing, 0, samplePattern, 120, 0, 10, 0, 0⟩

/-! ## Helper lemmas -/

theorem lookup_mem {α β : Type} [DecidableEq α] :
    ∀ (l : List (α × β)) (a : α) (b : β), l.lookup a = some b → (a, b) ∈ l := by
  intro l
  induction l with
  | nil => intro a b h; simp [List.lookup] at h
  | cons hd tl ih =>
      intro a b h
      obtain ⟨k, v⟩ := hd
      by_cases hak : a = k
      · subst hak
        simp [List.lookup_cons] at h
        subst h
        exact List.mem_cons_self _ _
      · have h2 : tl.lookup a = some b := by
          simpa [List.lookup_cons, beq_false_of_ne hak] using h
        exact List.mem_cons_of_mem _ (ih a b h2)

theorem keys_nodup_eq {α β : Type} :
    ∀ (l : List (α × β)) (a : α) (b c : β),
      (l.map Prod.fst).Nodup → (a, b) ∈ l → (a, c) ∈ l → b = c := by
  intro l
  induction l with
  | nil => intro a b c _ hb _; simp at hb
  | cons hd tl ih =>
      intro a b c hnd hb hc
      obtain ⟨k, v⟩ := hd
      simp only [List.map_cons, List.nodup_cons, List.mem_map] at hnd
      rcases List.mem_cons.1 hb with h1 | h1 <;> rcases List.mem_cons.1 hc with h2 | h2
      · rw [Prod.mk.injEq] at h1 h2
        exact h1.2.trans h2.2.symm
      · exfalso
        rw [Prod.mk.injEq] at h1
        exact hnd.1 ⟨(a, c), h2, by simp [h1.1]⟩
      · exfalso
        rw [Prod.mk.injEq] at h2
        exact hnd.1 ⟨(a, b), h1, by simp [h2.1]⟩
      · exact ih a b c hnd.2 h1 h2

theorem instrumentMap_val_inj :
    ∀ a ∈ instrumentMap, ∀ b ∈ instrumentMap, a.2 = b.2 → a.1 = b.1 := by
  intro a ha b hb h
  fin_cases ha <;> fin_cases hb <;> simp_all

theorem executeCommand_log_count (c : BridgeCmd) (s : Track) :
    ((executeCommand c s).2.countP LogEntry.isExecuting) = 1 := by
  unfold executeCommand
  cases h : knownActions.contains c.action with
  | false => simp [List.countP_cons, LogEntry.isExecuting]
  | true =>
      simp only [if_pos rfl]
      cases runAction c s <;> simp [List.countP_cons, LogEntry.isExecuting]

theorem response_log_count (cmds : List BridgeCmd) (s : Track) :
    ((response cmds s).2.countP LogEntry.isExecuting) = cmds.length := by
  induction cmds generalizing s with
  | nil => simp [response]
  | cons c rest ih =>
      simp [response, List.countP_append, executeCommand_log_count, ih]
      omega

theorem executeCommand_fst_of_error (c : BridgeCmd) (s : Track) (e : String)
    (h : runAction c s = .error e) : (executeCommand c s).1 = s := by
  unfold executeCommand
  cases hk : knownActions.contains c.action with
  | false => simp
  | true => simp [h]

/-! ## Claim theorems -/

/-- Claim C9: in the Max for Live bridge, every command in a `response` list
is executed inside its own exception guard — each contributes its
`"Executing: …"` log line regardless of what earlier commands did; a
command whose `runAction` throws does not prevent the remaining commands
from producing the same final Live state; and a command with an unknown
action leaves the Live state untouched and only logs. -/
theorem response_command_isolation :
    (∀ (cmds : List BridgeCmd) (s : Track),
        ((response cmds s).2.countP LogEntry.isExecuting) = cmds.length)
    ∧ (∀ (c : BridgeCmd) (s : Track), knownActions.contains c.action = false →
        executeCommand c s = (s, [.executing c.action, .unknownCommand c.action]))
    ∧ (∀ (c : BridgeCmd) (cmds : List BridgeCmd) (s : Track) (e : String),
        runAction c s = .error e →
        (response (c :: cmds) s).1 = (response cmds s).1) := by
  refine ⟨response_log_count, ?_, ?_⟩
  · intro c s h
    unfold executeCommand
    rw [if_neg (by simpa using h)]
  · intro c cmds s e h
    have h1 : (executeCommand c s).1 = s := executeCommand_fst_of_error c s e h
    simp [response, h1]

/-- Witness for C9: an unknown-action command leaves a concrete track
untouched, and a throwing `set_parameter` (no device 0 on the track) does
not change the state the following commands compute. -/
theorem response_command_isolation_witness :
    ((response [⟨"dance", 0, 0, 0, 0, [], none⟩]
        ⟨1, "T", 0, 0, 0, false, false, false, [], []⟩).2.countP
          LogEntry.isExecuting = 1)
    ∧ executeCommand ⟨"dance", 0, 0, 0, 0, [], none⟩
        ⟨1, "T", 0, 0, 0, false, false, false, [], []⟩
        = (⟨1, "T", 0, 0, 0, false, false, false, [], []⟩,
           [.executing "dance", .unknownCommand "dance"])
    ∧ (response [⟨"set_parameter", 0, 0, 5, 0, [], none⟩, ⟨"set_volume", 0, 0, 1, 0, [], none⟩]
        ⟨1, "T", 0, 0, 0, false, false, false, [], []⟩).1
        = (response [⟨"set_volume", 0, 0, 1, 0, [], none⟩]
            ⟨1, "T", 0, 0, 0, false, false, false, [], []⟩).1 :=
  ⟨response_command_isolation.1 _ _,
   response_command_isolation.2.1 _ _ (by decide),
   response_command_isolation.2.2 _ _ _ "invalid device path" rfl⟩

/-- Claim C10: the track context built by `getTrackContext` is bounded
regardless of the size of the Live set — every reported device carries at
most 20 parameters, at most 8 clip slots are reported, and devices of class
`MaxForLive` or named `ChatM4L` are excluded. -/
theorem getTrackContext_bounded :
    ∀ track : Track,
      (getTrackContext track).clipSlots.length ≤ 8
      ∧ ∀ d ∈ (getTrackContext track).devices,
          d.parameters.length ≤ 20 ∧ d.className ≠ "MaxForLive" ∧ d.name ≠ "ChatM4L" := by
  intro track
  constructor
  · unfold getTrackContext
    split
    · simp
    · simp only [getClipSlots, List.length_map, List.length_range]
      exact min_le_right _ _
  · intro d hd
    unfold getTrackContext at hd
    split at hd
    · simp at hd
    · unfold getDevices at hd
      simp only [List.mem_filterMap, List.mem_range] at hd
      obtain ⟨i, _, hf⟩ := hd
      cases hdev : track.devices[i]? with
      | none => rw [hdev] at hf; simp at hf
      | some device =>
          rw [hdev] at hf
          by_cases hskip : device.className = "MaxForLive" ∨ device.name = "ChatM4L"
          · simp [hskip] at hf
          · simp only [if_neg hskip, Option.some.injEq] at hf
            push_neg at hskip
            subst hf
            refine ⟨?_, hskip.1, hskip.2⟩
            simp only [getDeviceParameters, hdev, List.length_map, List.length_range]
            exact min_le_right _ _

/-- Witness for C10: on a concrete track with a 25-parameter device, a
skippable `ChatM4L` device and 10 clip slots, the context reports at most 8
slots and the surviving device's parameter list is capped at 20. -/
theorem getTrackContext_bounded_witness :
    (getTrackContext sampleTrack).clipSlots.length ≤ 8
    ∧ ((getTrackContext sampleTrack).devices.getD 0 ⟨0, "", "", []⟩).parameters.length ≤ 20 :=
  ⟨(getTrackContext_bounded sampleTrack).1,
   ((getTrackContext_bounded sampleTrack).2
      ((getTrackContext sampleTrack).devices.getD 0 ⟨0, "", "", []⟩) (by decide)).1⟩

/-- Claim C8: a configuration-error command — tempo out of range, unknown
instrument id — is rejected at the Control Channel boundary: `submitCommand`
surfaces the error and returns the queue and the playback state exactly as
they were, so the prior pattern and state remain in effect. -/
theorem config_error_rejected :
    (∀ (c : Command) (q : List Command) (st : LoopState) (e : ConfigError),
        validateCommand c = some e → submitCommand c q st = ((q, st), some e))
    ∧ (∀ t : ℚ, validTempo t = false →
        validateCommand (.setTempo t) = some (.tempoOutOfRange t))
    ∧ (∀ p : Pattern, validTempo p.tempoBpm = true →
        (∃ t ∈ p.tracks, knownInstrument t.1 = false) →
        ∃ id, validateCommand (.play p) = some (.unknownInstrument id)
              ∧ knownInstrument id = false) := by
  refine ⟨?_, ?_, ?_⟩
  · intro c q st e h
    unfold submitCommand
    rw [h]
  · intro t h
    simp [validateCommand, h]
  · intro p hpt hex
    simp only [validateCommand, validatePattern]
    rw [if_neg (by simp [hpt])]
    have hsome : (p.tracks.find? fun t => !knownInstrument t.1).isSome := by
      rw [List.find?_isSome]
      obtain ⟨t, ht, hkt⟩ := hex
      exact ⟨t, ht, by simp [hkt]⟩
    obtain ⟨t, hft⟩ := Option.isSome_iff_exists.1 hsome
    rw [hft]
    have hprop := List.find?_some hft
    exact ⟨t.1, rfl, by simpa using hprop⟩

/-- Witness for C8: `SetTempo 500` is rejected leaving a concrete queue and
state untouched, and a pattern with the unknown instrument id `"XX"` is
rejected as an unknown-instrument error. -/
theorem config_error_rejected_witness :
    validateCommand (.setTempo 500) = some (.tempoOutOfRange 500)
    ∧ submitCommand (.setTempo 500) [] sampleState
        = (([], sampleState), some (.tempoOutOfRange 500))
    ∧ ∃ id, validateCommand (.play ⟨120, 0, [("XX", List.replicate 16 0)]⟩)
              = some (.unknownInstrument id) ∧ knownInstrument id = false :=
  ⟨config_error_rejected.2.1 500 (by decide),
   config_error_rejected.1 _ _ _ _ (config_error_rejected.2.1 500 (by decide)),
   config_error_rejected.2.2 ⟨120, 0, [("XX", List.replicate 16 0)]⟩ (by decide)
     ⟨("XX", List.replicate 16 0), by decide, by decide⟩⟩

/-- Claim C2: with zero swing every step lasts
`base_step_duration = 60 / tempo / 4` seconds for any tempo in the valid
range, and at tempo 120 consecutive step deadlines over a full 16-step bar
are exactly 125 ms apart. -/
theorem base_step_duration_formula :
    (∀ (t : ℚ) (j : ℕ), 20 < t → t ≤ 300 → stepDuration t 0 j = 60 / t / 4)
    ∧ (∀ (start : ℚ) (i : ℕ), i < 16 →
        deadline start 120 0 (i + 1) - deadline start 120 0 i = 125 / 1000) := by
  constructor
  · intro t j _ _
    simp [stepDuration, swingOffset, baseStepDuration]
  · intro start i _
    simp only [deadline, swingOffset, baseStepDuration]
    push_cast
    ring_nf
    norm_num

/-- Witness for C2: step 3 at tempo 250 lasts a straight 16th note, and the
first two deadlines at tempo 120, swing 0 are 125 ms apart. -/
theorem base_step_duration_formula_witness :
    stepDuration 250 0 3 = 60 / 250 / 4
    ∧ deadline 0 120 0 1 - deadline 0 120 0 0 = 125 / 1000 :=
  ⟨base_step_duration_formula.1 250 3 (by decide) (by decide),
   base_step_duration_formula.2 0 0 (by decide)⟩

/-- Claim C3: the swing policy — even steps carry zero offset, odd steps are
delayed by `swing_percent / 100 * swing_max_offset` (a fixed fraction of the
base step duration), the offset vanishes at swing 0, grows monotonically
with the swing percent, and repeats identically every 16-step bar. -/
theorem swing_offset_invariants :
    ∀ (t : ℚ) (s : ℕ) (i : ℕ), s ≤ 100 →
      (i % 2 = 0 → swingOffset t s i = 0)
      ∧ (i % 2 = 1 → swingOffset t s i = (s : ℚ) / 100 * swingMaxOffset t)
      ∧ swingOffset t 0 i = 0
      ∧ (∀ s' : ℕ, s ≤ s' → 0 < t → swingOffset t s i ≤ swingOffset t s' i)
      ∧ swingOffset t s (i + 16) = swingOffset t s i := by
  intro t s i _
  refine ⟨?_, ?_, ?_, ?_, ?_⟩
  · intro h; simp [swingOffset, h]
  · intro h; simp [swingOffset, h]
  · simp [swingOffset]
  · intro s' hss' ht
    by_cases h : i % 2 = 1
    · simp only [swingOffset, if_pos h]
      have hM : 0 ≤ swingMaxOffset t := by
        unfold swingMaxOffset baseStepDuration
        positivity
      have hc : (s : ℚ) ≤ (s' : ℚ) := by exact_mod_cast hss'
      have h100 : (s : ℚ) / 100 ≤ (s' : ℚ) / 100 := by linarith
      exact mul_le_mul_of_nonneg_right h100 hM
    · simp [swingOffset, h]
  · unfold swingOffset
    have h16 : (i + 16) % 2 = i % 2 := by omega
    rw [h16]

/-- Witness for C3: the swing policy evaluated at tempo 120 for concrete
steps and swing percents. -/
theorem swing_offset_invariants_witness :
    swingOffset 120 50 2 = 0
    ∧ swingOffset 120 50 3 = (50 : ℚ) / 100 * swingMaxOffset 120
    ∧ swingOffset 120 0 3 = 0
    ∧ swingOffset 120 20 3 ≤ swingOffset 120 50 3
    ∧ swingOffset 120 50 19 = swingOffset 120 50 3 :=
  ⟨(swing_offset_invariants 120 50 2 (by decide)).1 (by decide),
   (swing_offset_invariants 120 50 3 (by decide)).2.1 (by decide),
   (swing_offset_invariants 120 0 3 (by decide)).2.2.1,
   (swing_offset_invariants 120 20 3 (by decide)).2.2.2.1 50 (by decide) (by decide),
   (swing_offset_invariants 120 50 3 (by decide)).2.2.2.2⟩

/-- Claim C4: a NoteOn is emitted for an instrument at a step exactly when
that instrument's `StepArray` value at the step is positive — and, for a
pattern whose track keys are distinct, a velocity of 0 guarantees no
`note_on` for that instrument's mapped channel/note at that step. -/
theorem note_emission_iff :
    (∀ (p : Pattern) (step : ℕ) (e : Event),
        e ∈ emitStep p step ↔
          ∃ inst arr ch note,
            (inst, arr) ∈ p.tracks
            ∧ instrumentMap.lookup inst = some (ch, note)
            ∧ 0 < arr.getD step 0
            ∧ e = .noteOn ch note (arr.getD step 0))
    ∧ (∀ (p : Pattern) (step : ℕ) (inst : String) (arr : List ℕ) (ch note : ℕ),
        (p.tracks.map Prod.fst).Nodup →
        (inst, arr) ∈ p.tracks →
        instrumentMap.lookup inst = some (ch, note) →
        arr.getD step 0 = 0 →
        ∀ v, Event.noteOn ch note v ∉ emitStep p step) := by
  have h1 : ∀ (p : Pattern) (step : ℕ) (e : Event),
      e ∈ emitStep p step ↔
        ∃ inst arr ch note,
          (inst, arr) ∈ p.tracks
          ∧ instrumentMap.lookup inst = some (ch, note)
          ∧ 0 < arr.getD step 0
          ∧ e = .noteOn ch note (arr.getD step 0) := by
    intro p step e
    unfold emitStep
    rw [List.mem_filterMap]
    constructor
    · rintro ⟨⟨inst, arr⟩, ht, hf⟩
      cases hl : instrumentMap.lookup inst with
      | none => rw [hl] at hf; simp at hf
      | some chn =>
          obtain ⟨ch, note⟩ := chn
          rw [hl] at hf
          dsimp only at hf
          by_cases hv : 0 < arr.getD step 0
          · rw [if_pos hv] at hf
            simp only [Option.some.injEq] at hf
            exact ⟨inst, arr, ch, note, ht, hl, hv, hf.symm⟩
          · rw [if_neg hv] at hf
            simp at hf
    · rintro ⟨inst, arr, ch, note, ht, hl, hv, rfl⟩
      refine ⟨(inst, arr), ht, ?_⟩
      dsimp only
      rw [hl]
      dsimp only
      rw [if_pos hv]
  refine ⟨h1, ?_⟩
  intro p step inst arr ch note hnd hmem hl hv0 v hv
  rcases (h1 p step _).1 hv with ⟨inst2, arr2, ch2, note2, hmem2, hl2, hv2, heq⟩
  simp only [Event.noteOn.injEq] at heq
  obtain ⟨hch, hnote, -⟩ := heq
  subst hch
  subst hnote
  have hinst : inst2 = inst :=
    instrumentMap_val_inj (inst2, (ch, note)) (lookup_mem _ _ _ hl2)
      (inst, (ch, note)) (lookup_mem _ _ _ hl) rfl
  subst hinst
  have harr : arr2 = arr := keys_nodup_eq p.tracks inst2 arr2 arr hnd hmem2 hmem
  subst harr
  omega

/-- Witness for C4: in the concrete four-on-the-floor pattern, the bass
drum's NoteOn is emitted at step 0 (velocity 127) and no bass-drum NoteOn
is emitted at step 1 (velocity 0). -/
theorem note_emission_iff_witness :
    Event.noteOn 9 36 127 ∈ emitStep samplePattern 0
    ∧ Event.noteOn 9 36 127 ∉ emitStep samplePattern 1 :=
  ⟨(note_emission_iff.1 samplePattern 0 _).2
      ⟨"BD", [127, 0, 0, 0, 127, 0, 0, 0, 127, 0, 0, 0, 127, 0, 0, 0], 9, 36,
       by decide, by decide, by decide, rfl⟩,
   note_emission_iff.2 samplePattern 1 "BD"
     [127, 0, 0, 0, 127, 0, 0, 0, 127, 0, 0, 0, 127, 0, 0, 0] 9 36
     (by decide) (by decide) (by decide) (by decide) 127⟩

/-! ## Playback-run lemmas -/

theorem applyCommand_startTime (st : LoopState) (c : Command) :
    (applyCommand st c).startTime = st.startTime := by
  cases c with
  | play p =>
      simp only [applyCommand]
      by_cases hc : st.status = Status.playing
      · rw [if_pos hc]
      · rw [if_neg hc]
  | stop => rfl
  | setTempo t => rfl
  | setSwing s => rfl
  | replacePattern p => rfl

theorem foldl_applyCommand_startTime (cmds : List Command) :
    ∀ st : LoopState, (cmds.foldl applyCommand st).startTime = st.startTime := by
  induction cmds with
  | nil => intro st; rfl
  | cons c rest ih =>
      intro st
      rw [List.foldl_cons, ih, applyCommand_startTime]

theorem loopIter_startTime (cmds : List Command) (jit : ℚ) (st : LoopState) :
    (loopIter cmds jit st).1.startTime = st.startTime := by
  unfold loopIter stepIter
  split
  · exact foldl_applyCommand_startTime cmds st
  · exact foldl_applyCommand_startTime cmds st

theorem run_startTime (inputs : ℕ → List Command) (jitter : ℕ → ℚ)
    (st0 : LoopState) : ∀ n, (run inputs jitter st0 n).1.startTime = st0.startTime := by
  intro n
  induction n with
  | zero => rfl
  | succ n ih =>
      rw [run]
      split
      · exact ih
      · rw [loopIter_startTime, ih]

theorem foldl_status_playing :
    ∀ (cmds : List Command) (st : LoopState),
      st.status = .playing → Command.stop ∉ cmds →
      (cmds.foldl applyCommand st).status = .playing := by
  intro cmds
  induction cmds with
  | nil => intro st h _; exact h
  | cons c rest ih =>
      intro st h hns
      have h2 : Command.stop ∉ rest := fun he => hns (List.mem_cons_of_mem _ he)
      rw [List.foldl_cons]
      refine ih _ ?_ h2
      cases c with
      | play p =>
          simp only [applyCommand]
          rw [if_pos h]
          exact h
      | stop => exact absurd (List.mem_cons_self _ _) hns
      | setTempo t => exact h
      | setSwing s => exact h
      | replacePattern p => exact h

theorem foldl_status_stopped_no_play :
    ∀ (cmds : List Command) (st : LoopState),
      st.status = .stopped → (∀ p, Command.play p ∉ cmds) →
      (cmds.foldl applyCommand st).status = .stopped := by
  intro cmds
  induction cmds with
  | nil => intro st h _; exact h
  | cons c rest ih =>
      intro st h hnp
      rw [List.foldl_cons]
      refine ih _ ?_ (fun p hp => hnp p (List.mem_cons_of_mem _ hp))
      cases c with
      | play p => exact absurd (List.mem_cons_self _ _) (hnp p)
      | stop => rfl
      | setTempo t => exact h
      | setSwing s => exact h
      | replacePattern p => exact h

theorem foldl_status_stopped :
    ∀ (cmds : List Command) (st : LoopState),
      Command.stop ∈ cmds → (∀ p, Command.play p ∉ cmds) →
      (cmds.foldl applyCommand st).status = .stopped := by
  intro cmds
  induction cmds with
  | nil => intro st hs _; simp at hs
  | cons c rest ih =>
      intro st hs hnp
      rw [List.foldl_cons]
      by_cases hc : c = Command.stop
      · subst hc
        exact foldl_status_stopped_no_play rest _ rfl
          (fun p hp => hnp p (List.mem_cons_of_mem _ hp))
      · have hs2 : Command.stop ∈ rest := by
          rcases List.mem_cons.1 hs with h | h
          · exact absurd h.symm hc
          · exact h
        exact ih _ hs2 (fun p hp => hnp p (List.mem_cons_of_mem _ hp))

theorem foldl_currentStep_playing :
    ∀ (cmds : List Command) (st : LoopState),
      st.status = .playing → Command.stop ∉ cmds →
      (cmds.foldl applyCommand st).currentStep = st.currentStep := by
  intro cmds
  induction cmds with
  | nil => intro st _ _; rfl
  | cons c rest ih =>
      intro st h hns
      have h2 : Command.stop ∉ rest := fun he => hns (List.mem_cons_of_mem _ he)
      rw [List.foldl_cons]
      have hstat : (applyCommand st c).status = .playing := by
        cases c with
        | play p =>
            simp only [applyCommand]
            rw [if_pos h]
            exact h
        | stop => exact absurd (List.mem_cons_self _ _) hns
        | setTempo t => exact h
        | setSwing s => exact h
        | replacePattern p => exact h
      rw [ih _ hstat h2]
      cases c with
      | play p => simp only [applyCommand]; rw [if_pos h]
      | stop => exact absurd (List.mem_cons_self _ _) hns
      | setTempo t => rfl
      | setSwing s => rfl
      | replacePattern p => rfl

theorem foldl_currentStep_lt :
    ∀ (cmds : List Command) (st : LoopState),
      st.currentStep < 16 →
      (cmds.foldl applyCommand st).currentStep < 16 := by
  intro cmds
  induction cmds with
  | nil => intro st h; exact h
  | cons c rest ih =>
      intro st h
      rw [List.foldl_cons]
      refine ih _ ?_
      cases c with
      | play p =>
          simp only [applyCommand]
          by_cases hc : st.status = Status.playing
          · rw [if_pos hc]; exact h
          · rw [if_neg hc]; exact (by norm_num : (0 : ℕ) < 16)
      | stop => exact h
      | setTempo t => exact h
      | setSwing s => exact h
      | replacePattern p => exact h

theorem run_currentStep_lt (inputs : ℕ → List Command) (jitter : ℕ → ℚ)
    (st0 : LoopState) (h16 : st0.currentStep < 16) :
    ∀ n, (run inputs jitter st0 n).1.currentStep < 16 := by
  intro n
  induction n with
  | zero => exact h16
  | succ n ih =>
      rw [run]
      split
      · exact ih
      · unfold loopIter stepIter
        split
        · exact foldl_currentStep_lt _ _ ih
        · exact Nat.mod_lt _ (by norm_num)

theorem run_frozen (inputs : ℕ → List Command) (jitter : ℕ → ℚ)
    (st0 : LoopState) (m : ℕ)
    (h : (run inputs jitter st0 m).1.status = .stopped) :
    ∀ n, m ≤ n → run inputs jitter st0 n = run inputs jitter st0 m := by
  intro n
  induction n with
  | zero =>
      intro h0
      have : m = 0 := Nat.le_zero.1 h0
      rw [this]
  | succ n ih =>
      intro hmn
      by_cases hm : m = n + 1
      · rw [hm]
      · have hmn2 : m ≤ n := by omega
        have he := ih hmn2
        rw [run, he, if_pos h]

theorem stepEntries_append (a b : List TraceEntry) :
    stepEntries (a ++ b) = stepEntries a ++ stepEntries b := by
  simp [stepEntries, List.filterMap_append]

theorem sweepEntries_append (a b : List TraceEntry) :
    sweepEntries (a ++ b) = sweepEntries a ++ sweepEntries b := by
  simp [sweepEntries, List.filterMap_append]

theorem run_playing_basic :
    ∀ (k : ℕ) (inputs : ℕ → List Command) (jitter : ℕ → ℚ) (st0 : LoopState),
      st0.status = .playing →
      (∀ i, i < k → Command.stop ∉ inputs i) →
      (run inputs jitter st0 k).1.status = .playing
      ∧ sweepEntries (run inputs jitter st0 k).2 = [] := by
  intro k
  induction k with
  | zero => intro inputs jitter st0 h _; exact ⟨h, rfl⟩
  | succ k ih =>
      intro inputs jitter st0 h hns
      have ihk := ih inputs jitter st0 h (fun i hi => hns i (by omega))
      have hst1 : ((inputs k).foldl applyCommand (run inputs jitter st0 k).1).status
          = .playing :=
        foldl_status_playing _ _ ihk.1 (hns k (by omega))
      rw [run, if_neg (by rw [ihk.1]; simp)]
      unfold loopIter stepIter
      rw [if_neg (by rw [hst1]; simp)]
      refine ⟨hst1, ?_⟩
      rw [sweepEntries_append, ihk.2]
      rfl

theorem run_playing_steps :
    ∀ (k : ℕ) (inputs : ℕ → List Command) (jitter : ℕ → ℚ) (st0 : LoopState),
      st0.status = .playing → st0.currentStep < 16 →
      (∀ i, i < k → Command.stop ∉ inputs i) →
      (run inputs jitter st0 k).1.currentStep = (st0.currentStep + k) % 16
      ∧ (stepEntries (run inputs jitter st0 k).2).map Prod.fst
          = (List.range k).map (fun j => (st0.currentStep + j) % 16) := by
  intro k
  induction k with
  | zero =>
      intro inputs jitter st0 h h16 _
      exact ⟨by simp [run, Nat.mod_eq_of_lt h16], rfl⟩
  | succ k ih =>
      intro inputs jitter st0 h h16 hns
      have hbasic := run_playing_basic k inputs jitter st0 h (fun i hi => hns i (by omega))
      have ihk := ih inputs jitter st0 h h16 (fun i hi => hns i (by omega))
      have hst1 : ((inputs k).foldl applyCommand (run inputs jitter st0 k).1).status
          = .playing :=
        foldl_status_playing _ _ hbasic.1 (hns k (by omega))
      have hcur : ((inputs k).foldl applyCommand (run inputs jitter st0 k).1).currentStep
          = (run inputs jitter st0 k).1.currentStep :=
        foldl_currentStep_playing _ _ hbasic.1 (hns k (by omega))
      rw [run, if_neg (by rw [hbasic.1]; simp)]
      unfold loopIter stepIter
      rw [if_neg (by rw [hst1]; simp)]
      constructor
      · dsimp only
        rw [hcur, ihk.1]
        omega
      · rw [stepEntries_append, List.map_append, ihk.2, List.range_succ, List.map_append]
        congr 1
        simp [stepEntries, hcur, ihk.1]

theorem deadline_eq_sum (start t : ℚ) (s : ℕ) :
    ∀ i, deadline start t s i
      = start + ((List.range (i + 1)).map (stepDuration t s)).sum := by
  intro i
  induction i with
  | zero =>
      simp [deadline, stepDuration, swingOffset, List.range_succ]
  | succ i ih =>
      rw [List.range_succ, List.map_append, List.sum_append]
      simp only [List.map_cons, List.map_nil, List.sum_cons, List.sum_nil]
      rw [← add_assoc, ← ih]
      simp only [deadline, stepDuration]
      have hsub : i + 1 - 1 = i := by omega
      rw [hsub]
      push_cast
      ring

theorem run_empty_state :
    ∀ (n : ℕ) (jitter : ℕ → ℚ) (st0 : LoopState),
      st0.status = .playing → st0.stepsDone = 0 → st0.elapsed = 0 →
      (run (fun _ => []) jitter st0 n).1.stepsDone = n
      ∧ (run (fun _ => []) jitter st0 n).1.elapsed
          = ((List.range n).map (stepDuration st0.tempo st0.swing)).sum
      ∧ (run (fun _ => []) jitter st0 n).1.tempo = st0.tempo
      ∧ (run (fun _ => []) jitter st0 n).1.swing = st0.swing
      ∧ (stepEntries (run (fun _ => []) jitter st0 n).2).map (fun e => e.2.1)
          = (List.range n).map (fun j =>
              st0.startTime
                + ((List.range (j + 1)).map (stepDuration st0.tempo st0.swing)).sum) := by
  intro n
  induction n with
  | zero =>
      intro jitter st0 h h1 h2
      exact ⟨h1, by simpa using h2, rfl, rfl, rfl⟩
  | succ n ih =>
      intro jitter st0 h h1 h2
      have ihn := ih jitter st0 h h1 h2
      have hstatus := (run_playing_basic n (fun _ => []) jitter st0 h (fun i _ => by simp)).1
      rw [run, if_neg (by rw [hstatus]; simp)]
      unfold loopIter stepIter
      simp only [List.foldl_nil]
      rw [if_neg (by rw [hstatus]; simp)]
      refine ⟨?_, ?_, ihn.2.2.1, ihn.2.2.2.1, ?_⟩
      · dsimp only
        rw [ihn.1]
      · dsimp only
        rw [ihn.2.1, ihn.2.2.1, ihn.2.2.2.1, ihn.1, List.range_succ, List.map_append,
          List.sum_append]
        simp
      · rw [stepEntries_append, List.map_append, ihn.2.2.2.2, List.range_succ,
          List.map_append]
        congr 1
        simp only [stepEntries, List.filterMap_cons, List.filterMap_nil, List.map_cons,
          List.map_nil, List.map_cons]
        rw [run_startTime, ihn.2.1, ihn.2.2.1, ihn.2.2.2.1, ihn.1, List.range_succ,
          List.map_append, List.sum_append]
        simp [add_assoc]

/-- Claim C1: deadlines come from a single fixed reference captured at
playback start — the start reference never changes during a run, the
engine's closed-form deadline equals `start + Σ(j=0..i) duration(j)`, and in
a command-free run the emitted deadlines are exactly those cumulative sums,
for *every* jitter function (so they are never chained `now() + duration`
step to step). -/
theorem deadline_from_fixed_origin :
    (∀ (inputs : ℕ → List Command) (jitter : ℕ → ℚ) (st0 : LoopState) (n : ℕ),
        (run inputs jitter st0 n).1.startTime = st0.startTime)
    ∧ (∀ (start t : ℚ) (s : ℕ) (i : ℕ),
        deadline start t s i
          = start + ((List.range (i + 1)).map (stepDuration t s)).sum)
    ∧ (∀ (jitter : ℕ → ℚ) (st0 : LoopState) (n : ℕ),
        st0.status = .playing → st0.stepsDone = 0 → st0.elapsed = 0 →
        (stepEntries (run (fun _ => []) jitter st0 n).2).map (fun e => e.2.1)
          = (List.range n).map (fun j =>
              st0.startTime
                + ((List.range (j + 1)).map (stepDuration st0.tempo st0.swing)).sum)) :=
  ⟨fun inputs jitter st0 n => run_startTime inputs jitter st0 n,
   fun start t s i => deadline_eq_sum start t s i,
   fun jitter st0 n h h1 h2 => (run_empty_state n jitter st0 h h1 h2).2.2.2.2⟩

/-- Witness for C1: a concrete two-step run from start time 10 at tempo 120
emits deadlines `10 + 1/8` and `10 + 2/8`, the cumulative sums from the
fixed origin. -/
theorem deadline_from_fixed_origin_witness :
    (run (fun _ => []) (fun _ => 0) sampleState 2).1.startTime = 10
    ∧ (stepEntries (run (fun _ => []) (fun _ => 0) sampleState 2).2).map (fun e => e.2.1)
        = [sampleState.startTime
             + ((List.range 1).map (stepDuration sampleState.tempo sampleState.swing)).sum,
           sampleState.startTime
             + ((List.range 2).map (stepDuration sampleState.tempo sampleState.swing)).sum] := by
  constructor
  · exact deadline_from_fixed_origin.1 (fun _ => []) (fun _ => 0) sampleState 2
  · rw [deadline_from_fixed_origin.2.2 (fun _ => 0) sampleState 2 rfl rfl rfl]
    rfl

/-- Claim C5: when `Stop` is drained at iteration `k` of a playing run, the
whole remaining trace is exactly one "all notes off" sweep covering every
instrument of the map — no further step (hence no further `note_on`) is
emitted after the stop is observed, and the sweep is emitted exactly once
before the context exits. -/
theorem stop_latency :
    ∀ (inputs : ℕ → List Command) (jitter : ℕ → ℚ) (st0 : LoopState) (k n : ℕ),
      st0.status = .playing →
      (∀ i, i < k → Command.stop ∉ inputs i) →
      Command.stop ∈ inputs k →
      (∀ p, Command.play p ∉ inputs k) →
      k < n →
      (run inputs jitter st0 n).2
        = (run inputs jitter st0 k).2 ++ [.stopSweep allNotesOffSweep]
      ∧ sweepEntries (run inputs jitter st0 n).2 = [allNotesOffSweep]
      ∧ stepEntries (run inputs jitter st0 n).2
          = stepEntries (run inputs jitter st0 k).2 := by
  intro inputs jitter st0 k n h hbefore hstop hnoplay hkn
  have hbasic := run_playing_basic k inputs jitter st0 h hbefore
  have hst1 : ((inputs k).foldl applyCommand (run inputs jitter st0 k).1).status
      = .stopped :=
    foldl_status_stopped _ _ hstop hnoplay
  have hk1 : run inputs jitter st0 (k + 1)
      = ((inputs k).foldl applyCommand (run inputs jitter st0 k).1,
         (run inputs jitter st0 k).2 ++ [.stopSweep allNotesOffSweep]) := by
    rw [run, if_neg (by rw [hbasic.1]; simp)]
    unfold loopIter stepIter
    rw [if_pos hst1]
  have hfrozen := run_frozen inputs jitter st0 (k + 1)
    (by rw [hk1]; exact hst1) n (by omega)
  refine ⟨?_, ?_, ?_⟩
  · rw [hfrozen, hk1]
  · rw [hfrozen, hk1]
    show sweepEntries ((run inputs jitter st0 k).2 ++ [.stopSweep allNotesOffSweep]) = _
    rw [sweepEntries_append, hbasic.2]
    rfl
  · rw [hfrozen, hk1]
    show stepEntries ((run inputs jitter st0 k).2 ++ [.stopSweep allNotesOffSweep]) = _
    rw [stepEntries_append]
    simp [stepEntries]

/-- Witness for C5: stopping at iteration 1 of a concrete three-iteration
run leaves the one-step prefix trace plus exactly one full sweep. -/
theorem stop_latency_witness :
    (run (fun i => if i = 1 then [Command.stop] else []) (fun _ => 0) sampleState 3).2
      = (run (fun i => if i = 1 then [Command.stop] else []) (fun _ => 0) sampleState 1).2
        ++ [.stopSweep allNotesOffSweep]
    ∧ sweepEntries
        (run (fun i => if i = 1 then [Command.stop] else []) (fun _ => 0) sampleState 3).2
        = [allNotesOffSweep] := by
  have h := stop_latency (fun i => if i = 1 then [Command.stop] else []) (fun _ => 0)
    sampleState 1 3 rfl
    (by intro i hi
        have h0 : i = 0 := by omega
        subst h0
        simp)
    (by simp) (by intro p; simp) (by omega)
  exact ⟨h.1, h.2.1⟩

/-- Claim C6: a pattern replacement while `Playing` never resets
`current_step`; the iteration that drains `Play(p2)` emits step values taken
from the *new* pattern at the unchanged step index and then advances
normally; and draining `Play(p)` when `p` is already the active
pattern/tempo/swing baseline behaves exactly like an iteration with no
command at all — no restart, no duplicated emission. -/
theorem pattern_hotswap_continuity :
    ∀ (st : LoopState) (p p2 : Pattern) (jit : ℚ) (c : Command),
      st.status = .playing →
      ((applyCommand st c).currentStep = st.currentStep)
      ∧ ((loopIter [Command.play p2] jit st).1.currentStep = (st.currentStep + 1) % 16)
      ∧ ((loopIter [Command.play p2] jit st).2
          = [.step st.currentStep
               (st.startTime + st.elapsed
                  + stepDuration (clampTempo p2.tempoBpm) (clampSwing p2.swingPercent)
                      st.stepsDone)
               (st.startTime + st.elapsed
                  + stepDuration (clampTempo p2.tempoBpm) (clampSwing p2.swingPercent)
                      st.stepsDone + jit)
               (emitStep p2 st.currentStep ++ [.stepChanged st.currentStep])])
      ∧ (st.pattern = p → st.tempo = clampTempo p.tempoBpm →
          st.swing = clampSwing p.swingPercent →
          loopIter [Command.play p] jit st = loopIter [] jit st) := by
  intro st p p2 jit c h
  have happly : ∀ q : Pattern, applyCommand st (Command.play q)
      = { st with pattern := q, tempo := clampTempo q.tempoBpm,
                  swing := clampSwing q.swingPercent } := by
    intro q
    simp only [applyCommand]
    rw [if_pos h]
  refine ⟨?_, ?_, ?_, ?_⟩
  · cases c with
    | play q => rw [happly q]
    | stop => rfl
    | setTempo t => rfl
    | setSwing s2 => rfl
    | replacePattern q => rfl
  · unfold loopIter
    simp only [List.foldl_cons, List.foldl_nil]
    rw [happly p2]
    unfold stepIter
    rw [if_neg (by dsimp only; rw [h]; simp)]
  · unfold loopIter
    simp only [List.foldl_cons, List.foldl_nil]
    rw [happly p2]
    unfold stepIter
    rw [if_neg (by dsimp only; rw [h]; simp)]
  · intro hp ht hs
    have happ : applyCommand st (Command.play p) = st := by
      rw [happly p, ← ht, ← hs, ← hp]
    unfold loopIter
    simp only [List.foldl_cons, List.foldl_nil, happ]

/-- Witness for C6: replacing the active pattern of a concrete playing
state leaves `current_step` at 0, the boundary step is emitted from the new
pattern, and re-playing the already-active pattern changes nothing. -/
theorem pattern_hotswap_continuity_witness :
    (applyCommand sampleState (.replacePattern samplePattern2)).currentStep = 0
    ∧ (loopIter [Command.play samplePattern2] 0 sampleState).1.currentStep = 1
    ∧ (loopIter [Command.play samplePattern2] 0 sampleState).2
        = [.step sampleState.currentStep
             (sampleState.startTime + sampleState.elapsed
                + stepDuration (clampTempo samplePattern2.tempoBpm)
                    (clampSwing samplePattern2.swingPercent) sampleState.stepsDone)
             (sampleState.startTime + sampleState.elapsed
                + stepDuration (clampTempo samplePattern2.tempoBpm)
                    (clampSwing samplePattern2.swingPercent) sampleState.stepsDone + 0)
             (emitStep samplePattern2 sampleState.currentStep
                ++ [.stepChanged sampleState.currentStep])]
    ∧ loopIter [Command.play samplePattern] 0 sampleState = loopIter [] 0 sampleState := by
  have h := pattern_hotswap_continuity sampleState samplePattern samplePattern2 0
    (.replacePattern samplePattern2) rfl
  refine ⟨?_, ?_, h.2.2.1, h.2.2.2 rfl (by decide) (by decide)⟩
  · rw [h.1]
    decide
  · rw [h.2.1]
    decide

/-- Claim C7: `current_step` stays in `[0,16)` in every reachable playback
state; a playing iteration advances it as `(current_step + 1) mod 16`;
every emitted step fires no earlier than its computed deadline; and in a
stop-free run the emitted step indices follow the mod-16 successor chain in
strict order. -/
theorem current_step_invariant :
    (∀ (inputs : ℕ → List Command) (jitter : ℕ → ℚ) (st0 : LoopState) (n : ℕ),
        st0.currentStep < 16 → (run inputs jitter st0 n).1.currentStep < 16)
    ∧ (∀ (cmds : List Command) (jit : ℚ) (st : LoopState),
        (cmds.foldl applyCommand st).status = .playing →
        (loopIter cmds jit st).1.currentStep
          = ((cmds.foldl applyCommand st).currentStep + 1) % 16)
    ∧ (∀ (inputs : ℕ → List Command) (jitter : ℕ → ℚ) (st0 : LoopState) (n : ℕ),
        (∀ i, 0 ≤ jitter i) →
        ∀ e ∈ stepEntries (run inputs jitter st0 n).2, e.2.1 ≤ e.2.2)
    ∧ (∀ (inputs : ℕ → List Command) (jitter : ℕ → ℚ) (st0 : LoopState) (n : ℕ),
        st0.status = .playing → st0.currentStep < 16 →
        (∀ i, Command.stop ∉ inputs i) →
        (stepEntries (run inputs jitter st0 n).2).map Prod.fst
          = (List.range n).map fun j => (st0.currentStep + j) % 16) := by
  refine ⟨?_, ?_, ?_, ?_⟩
  · intro inputs jitter st0 n h16
    exact run_currentStep_lt inputs jitter st0 h16 n
  · intro cmds jit st hst
    unfold loopIter stepIter
    rw [if_neg (by rw [hst]; simp)]
  · intro inputs jitter st0 n hj
    induction n with
    | zero => intro e he; simp [run, stepEntries] at he
    | succ n ih =>
        intro e he
        rw [run] at he
        by_cases hst : (run inputs jitter st0 n).1.status = .stopped
        · rw [if_pos hst] at he
          exact ih e he
        · rw [if_neg hst] at he
          simp only [stepEntries_append, List.mem_append] at he
          rcases he with he | he
          · exact ih e he
          · unfold loopIter stepIter at he
            by_cases hst1 : ((inputs n).foldl applyCommand
                (run inputs jitter st0 n).1).status = .stopped
            · rw [if_pos hst1] at he
              simp [stepEntries] at he
            · rw [if_neg hst1] at he
              simp only [stepEntries, List.filterMap_cons, List.filterMap_nil] at he
              simp only [List.mem_singleton] at he
              rw [he]
              have := hj n
              dsimp only
              linarith
  · intro inputs jitter st0 n h h16 hns
    exact (run_playing_steps n inputs jitter st0 h h16 (fun i _ => hns i)).2

/-- Witness for C7: a concrete two-iteration stop-free run keeps
`current_step` inside `[0,16)` and emits steps 0 then 1. -/
theorem current_step_invariant_witness :
    (run (fun _ => []) (fun _ => 0) sampleState 2).1.currentStep < 16
    ∧ (stepEntries (run (fun _ => []) (fun _ => 0) sampleState 2).2).map Prod.fst
        = [0, 1] := by
  constructor
  · exact current_step_invariant.1 (fun _ => []) (fun _ => 0) sampleState 2 (by decide)
  · rw [current_step_invariant.2.2.2 (fun _ => []) (fun _ => 0) sampleState 2 rfl
      (by decide) (fun i => by simp)]
    decide

end TRAIS
